import Mathlib

/-!
# Verification of the `EB_CondaEnv` easyblock

A shallow embedding of `easybuild/easyblocks/c/condaenv.py`: the lifecycle
methods of the `EB_CondaEnv` class are translated into pure state-passing
functions.  The mutable world the Python code acts on (the process
environment `os.environ`, the install directory, the `self.src` list) is a
record `PState`, and every externally observable side effect (shell command,
environment-variable write, recursive delete, file copy, chmod) is appended
to an event trace so that ordering properties can be stated.  External
nondeterminism (exit codes and captured output of shell commands, filesystem
errors of `shutil.copy2` / `os.chmod`) is a parameter `World`.

Framework helpers that the easyblock calls but whose code lives outside this
repository (`runCommand`, `rmtree2`, `env.setvar`, the easyconfig lookup of a
mandatory key) are modelled from the spec; their doc comments say so.
-/

set_option autoImplicit false

namespace CondaEnv

/-- One entry of `self.src` as `extract_step` uses it: the `path` and `name`
fields it reads and the `finalpath` field it writes. -/
structure SourceDesc where
  path : String
  name : String
  finalpath : String
  deriving DecidableEq

/-- The two easyconfig parameters registered by `EB_CondaEnv.extra_options`:
`environment` (MANDATORY; `none` models the key being absent) and
`post_install_cmd` (CUSTOM, default `None`). -/
structure Config where
  environment : Option String
  post_install_cmd : Option String
  deriving DecidableEq

/-- The process environment `os.environ`, as an association list. -/
abbrev EnvMap := List (String × String)

/-- Dictionary lookup in the process environment (`myEnv["PATH"]`-style,
`none` when the variable is unbound). -/
def getvar (m : EnvMap) (k : String) : Option String :=
  match m with
  | [] => none
  | (k', v) :: rest => if k' == k then some v else getvar rest k

/-- In-place update of the process environment: rebind `k` if bound,
otherwise append the binding. -/
def setvar (m : EnvMap) (k v : String) : EnvMap :=
  match m with
  | [] => [(k, v)]
  | (k', v') :: rest => if k' == k then (k, v) :: rest else (k', v') :: setvar rest k v

/-- The externally observable side effects of a run, in program order. -/
inductive Event where
  | runCmd (cmd : String)
  | setEnv (key val : String)
  | rmtree (path : String)
  | copy2 (src dstdir : String)
  | chmod (path : String) (mode : Nat)
  deriving DecidableEq

/-- The mutable state an `EB_CondaEnv` run acts on: the process environment,
the install directory (`none` = absent, `some l` = present with entries `l`),
the `self.src` list, and the trace of effects performed so far. -/
structure PState where
  env : EnvMap
  installdir_contents : Option (List String)
  srcs : List SourceDesc
  trace : List Event
  deriving DecidableEq

/-- The external world: the (exit code, captured output) of each shell
command, and the filesystem error (if any) raised by `shutil.copy2 src dstdir`
or `os.chmod path mode`. -/
structure World where
  run : String → Nat × String
  copy2Err : String → String → Option String
  chmodErr : String → Nat → Option String

/-- The structured failures the easyblock can raise: a missing dictionary
key, an `EasyBuildError` from a failed shell command (carrying the command,
its exit status and its captured output), and the `EasyBuildError` raised by
`extract_step` (carrying the source path, the destination directory and the
underlying filesystem error). -/
inductive EBError where
  | missingKey (key : String)
  | cmdFailed (cmd : String) (ec : Nat) (out : String)
  | copyFailed (src : String) (dstdir : String) (err : String)
  deriving DecidableEq

/-- Outcome of a step: the final state, paired with the error on failure
(the state at the moment the exception was raised). -/
abbrev Res := Except (EBError × PState) PState

/-- The state a step left behind, whether it succeeded or raised. -/
def stateOf : Res → PState
  | .ok s => s
  | .error (_, s) => s

/-- The error a step raised, if any. -/
def errOf : Res → Option EBError
  | .ok _ => none
  | .error (e, _) => some e

/-- Whether a step succeeded. -/
def isOkR : Res → Bool
  | .ok _ => true
  | .error _ => false

/-- Exception propagation: a raised error aborts the rest of the sequence. -/
def bindR (r : Res) (f : PState → Res) : Res :=
  match r with
  | .error e => .error e
  | .ok s => f s

/-- Modelled from the spec: `runCommand` from `easybuild.tools.run` (framework
code, not part of this repository).  Runs `cmd` synchronously, capturing its
output, and raises an `EasyBuildError` carrying the command, exit status and
captured output when the command exits non-zero and failure logging is on
(`log_all=True` at the two conda call sites; the framework default
`log_ok=True` at the `post_install_cmd` call site — per the spec, all three
calls fail on non-zero exit). -/
def runCommand (w : World) (cmd : String) (log_all log_ok : Bool) (s : PState) : Res :=
  let ec := (w.run cmd).1
  let out := (w.run cmd).2
  let s1 : PState := { s with trace := s.trace ++ [Event.runCmd cmd] }
  if ec = 0 then .ok s1
  else if log_all || log_ok then .error (.cmdFailed cmd ec out, s1)
  else .ok s1

/-- Modelled from the spec: `rmtree2` from `easybuild.tools.filetools`
(framework code, not part of this repository): recursively deletes the
directory; absence is not an error, so it is total and always leaves the
directory absent. -/
def rmtree2 (s : PState) (path : String) : PState :=
  { s with installdir_contents := none, trace := s.trace ++ [Event.rmtree path] }

/-- Modelled from the spec: `env.setvar` from `easybuild.tools.environment`
(framework code, not part of this repository): mutates `os.environ` in
place. -/
def env_setvar (s : PState) (k v : String) : PState :=
  { s with env := setvar s.env k v, trace := s.trace ++ [Event.setEnv k v] }

/-- `EB_CondaEnv.set_conda_env`: prepend `<installdir>/bin` to `PATH` and
set `CONDA_ENV` and `CONDA_DEFAULT_ENV` to the install directory.  Reading
`myEnv["PATH"]` raises a `KeyError` when `PATH` is unbound. -/
def set_conda_env (installdir : String) (s : PState) : Res :=
  match getvar s.env "PATH" with
  | none => .error (.missingKey "PATH", s)
  | some p =>
      .ok (env_setvar (env_setvar (env_setvar s
            "PATH" (installdir ++ "/bin" ++ ":" ++ p))
            "CONDA_ENV" installdir)
            "CONDA_DEFAULT_ENV" installdir)

/-- The exact command string built by `install_conda_env`. -/
def createCmd (envfile installdir : String) : String :=
  "conda env create -f " ++ envfile ++ " -p " ++ installdir

/-- The exact command string run by `initialize_conda_env`. -/
def condaConfigCmd : String :=
  "conda config --add create_default_packages setuptools"

/-- `EB_CondaEnv.initialize_conda_env`: recursively delete the install
directory, then run `conda config --add create_default_packages setuptools`
with `log_all=True`. -/
def initialize_conda_env (installdir : String) (w : World) (s : PState) : Res :=
  runCommand w condaConfigCmd true true (rmtree2 s installdir)

/-- `EB_CondaEnv.install_conda_env`: apply the environment overlay, look up
the mandatory `environment` key (the lookup of an absent key is modelled
from the spec as a failure), and run
`conda env create -f <environment> -p <installdir>` with `log_all=True`. -/
def install_conda_env (cfg : Config) (installdir : String) (w : World) (s : PState) : Res :=
  bindR (set_conda_env installdir s) (fun s1 =>
    match cfg.environment with
    | none => .error (.missingKey "environment", s1)
    | some envfile => runCommand w (createCmd envfile installdir) true true s1)

/-- `EB_CondaEnv.post_install_step`: a no-op when `post_install_cmd` is falsy
(`None` or the empty string); otherwise apply the environment overlay again
and run the user command with the `runCommand` defaults
(`log_all=False`, `log_ok=True`). -/
def post_install_step (cfg : Config) (installdir : String) (w : World) (s : PState) : Res :=
  match cfg.post_install_cmd with
  | none => .ok s
  | some c =>
      if c = "" then .ok s
      else bindR (set_conda_env installdir s) (fun s1 => runCommand w c false true s1)

/-- `EB_CondaEnv.install_step`: `initialize_conda_env`, `install_conda_env`,
`post_install_step`, in that order. -/
def install_step (cfg : Config) (installdir : String) (w : World) (s : PState) : Res :=
  bindR (initialize_conda_env installdir w s) (fun s1 =>
    bindR (install_conda_env cfg installdir w s1) (fun s2 =>
      post_install_step cfg installdir w s2))

/-- The copy loop of `extract_step`: for each source, `shutil.copy2(src,
builddir)` then `os.chmod(dst, stat.S_IRWXU)` (`S_IRWXU` = 0o700 = 448),
where `dst = os.path.join(builddir, name)`; both calls sit in one try/except
that raises `EasyBuildError("Couldn't copy %s to %s: %s", src, builddir,
err)`, aborting the loop. -/
def stage_sources (bd : String) (w : World) : List SourceDesc → PState → Res
  | [], s => .ok s
  | d :: rest, s =>
      match w.copy2Err d.path bd with
      | some err => .error (.copyFailed d.path bd err, s)
      | none =>
          let s1 : PState := { s with trace := s.trace ++ [Event.copy2 d.path bd] }
          match w.chmodErr (bd ++ "/" ++ d.name) 448 with
          | some err => .error (.copyFailed d.path bd err, s1)
          | none =>
              stage_sources bd w rest
                { s1 with trace := s1.trace ++ [Event.chmod (bd ++ "/" ++ d.name) 448] }

/-- `EB_CondaEnv.extract_step`: a no-op when `self.src` is empty; otherwise
set `self.src[0]['finalpath']` to the build directory, then copy every
source into the build directory. -/
def extract_step (bd : String) (w : World) (s : PState) : Res :=
  match s.srcs with
  | [] => .ok s
  | d :: rest =>
      stage_sources bd w ({ d with finalpath := bd } :: rest)
        { s with srcs := { d with finalpath := bd } :: rest }

/-- `EB_CondaEnv.make_module_req_guess`: the fixed dictionary of candidate
subdirectories (`os.path.join` on POSIX separators written out); the
configuration is never consulted. -/
def make_module_req_guess (_cfg : Config) : List (String × List String) :=
  [("PATH", ["bin", "sbin"]),
   ("MANPATH", ["man", "share/man"]),
   ("PKG_CONFIG_PATH", ["lib", "lib32", "lib64", "share"].map (fun x => x ++ "/pkgconfig"))]

/-- Is the event a shell-command invocation? -/
def isRun : Event → Bool
  | .runCmd _ => true
  | _ => false

/-- The shell commands of a trace, in order. -/
def runsOf (t : List Event) : List Event := t.filter isRun

/-- Is the event a write of the `PATH` environment variable? -/
def isSetPATH : Event → Bool
  | .setEnv k _ => k == "PATH"
  | _ => false

/-- The events the copy loop emits for a list of sources that stage
without error. -/
def stageEvents (bd : String) : List SourceDesc → List Event
  | [] => []
  | d :: rest =>
      Event.copy2 d.path bd :: Event.chmod (bd ++ "/" ++ d.name) 448 :: stageEvents bd rest

/-- Descriptor `d` stages without a filesystem error in world `w`. -/
def descOk (bd : String) (w : World) (d : SourceDesc) : Prop :=
  w.copy2Err d.path bd = none ∧ w.chmodErr (bd ++ "/" ++ d.name) 448 = none

/-- In a trace, is the overlay (a binding of `PATH`) applied before the
first shell command?  (`true` when there is no shell command at all.) -/
def overlayBeforeFirstRun : List Event → Bool
  | [] => true
  | Event.runCmd _ :: _ => false
  | Event.setEnv k _ :: rest => if k == "PATH" then true else overlayBeforeFirstRun rest
  | _ :: rest => overlayBeforeFirstRun rest

/-- A world in which every command succeeds with empty output and no
filesystem operation fails. -/
def okWorld : World :=
  ⟨fun _ => (0, ""), fun _ _ => none, fun _ _ => none⟩

/-- A world in which exactly the command `bad` exits with status 1 and
output "boom". -/
def failWorld (bad : String) : World :=
  ⟨fun c => if c == bad then (1, "boom") else (0, ""), fun _ _ => none, fun _ _ => none⟩

/-- A concrete starting state used by the witnesses: `PATH` bound, the
install directory present and non-empty, no sources, empty trace. -/
def s0 : PState :=
  ⟨[("PATH", "/usr/bin")], some ["old"], [], []⟩

@[simp] theorem isRun_runCmd (c : String) : isRun (Event.runCmd c) = true := rfl

@[simp] theorem isRun_setEnv (k v : String) : isRun (Event.setEnv k v) = false := rfl

@[simp] theorem isRun_rmtree (p : String) : isRun (Event.rmtree p) = false := rfl

@[simp] theorem isRun_copy2 (a b : String) : isRun (Event.copy2 a b) = false := rfl

@[simp] theorem isRun_chmod (p : String) (m : Nat) : isRun (Event.chmod p m) = false := rfl

@[simp] theorem runsOf_nil : runsOf [] = [] := rfl

@[simp] theorem runsOf_append (t1 t2 : List Event) :
    runsOf (t1 ++ t2) = runsOf t1 ++ runsOf t2 := by
  simp [runsOf, List.filter_append]

theorem getvar_setvar_same (m : EnvMap) (k v : String) :
    getvar (setvar m k v) k = some v := by
  induction m with
  | nil => simp [setvar, getvar]
  | cons a rest ih =>
      rcases a with ⟨ka, va⟩
      by_cases hk : ka = k
      · subst hk; simp [setvar, getvar]
      · simp [setvar, getvar, beq_iff_eq, hk, ih]

theorem getvar_setvar_other (m : EnvMap) (k k' v : String) (h : k' ≠ k) :
    getvar (setvar m k v) k' = getvar m k' := by
  induction m with
  | nil => simp [setvar, getvar, beq_iff_eq, Ne.symm h]
  | cons a rest ih =>
      rcases a with ⟨ka, va⟩
      by_cases hk : ka = k
      · subst hk; simp [setvar, getvar, beq_iff_eq, Ne.symm h]
      · simp [setvar, getvar, beq_iff_eq, hk, ih]

/-- Reading `PATH` back after one application of the overlay. -/
theorem getvar_overlay_PATH (m : EnvMap) (d v : String) :
    getvar (setvar (setvar (setvar m "PATH" v) "CONDA_ENV" d) "CONDA_DEFAULT_ENV" d) "PATH"
      = some v := by
  rw [getvar_setvar_other _ _ _ _ (by decide), getvar_setvar_other _ _ _ _ (by decide),
    getvar_setvar_same]

/-- `runCommand` always records the command and otherwise leaves the state as
built, whether it raises or not. -/
theorem stateOf_runCommand (w : World) (cmd : String) (la lo : Bool) (s : PState) :
    stateOf (runCommand w cmd la lo s) =
      { s with trace := s.trace ++ [Event.runCmd cmd] } := by
  unfold runCommand
  by_cases h : (w.run cmd).1 = 0
  · simp [h, stateOf]
  · by_cases h2 : (la || lo) = true
    · simp [h, h2, stateOf]
    · simp [h, h2, stateOf]

/-- C1: if the `environment` configuration key is missing,
`install_conda_env` fails, and no shell command is run on that path: the
shell commands of the resulting trace are exactly those already in the
starting trace (neither `conda config` nor `conda env create` is added). -/
theorem install_conda_env_missing_key_no_shellout (cfg : Config)
    (h : cfg.environment = none) (installdir : String) (w : World) (s : PState) :
    isOkR (install_conda_env cfg installdir w s) = false ∧
    runsOf (stateOf (install_conda_env cfg installdir w s)).trace = runsOf s.trace := by
  unfold install_conda_env
  cases hp : getvar s.env "PATH" with
  | none => simp [set_conda_env, hp, bindR, isOkR, stateOf]
  | some p =>
      simp [set_conda_env, hp, bindR, h, isOkR, stateOf, env_setvar, runsOf,
        List.filter_append, isRun]

/-- Witness for C1: a configuration with the `environment` key absent, run
from the concrete state `s0`. -/
theorem install_conda_env_missing_key_no_shellout_instance :
    isOkR (install_conda_env ⟨none, none⟩ "/opt/e" okWorld s0) = false ∧
    runsOf (stateOf (install_conda_env ⟨none, none⟩ "/opt/e" okWorld s0)).trace =
      runsOf s0.trace :=
  install_conda_env_missing_key_no_shellout ⟨none, none⟩ rfl "/opt/e" okWorld s0

/-- C4: for every prior state of the install directory (present with files,
present empty, or absent — the starting state is universally quantified),
`initialize_conda_env` first recursively deletes it (totally: absence is not
an error), leaving it absent, and then runs
`conda config --add create_default_packages setuptools`; the resulting state
is exactly the starting state with the directory absent and the two effects
appended in that order, so the directory is absent when the builder step
starts. -/
theorem initialize_conda_env_clears_installdir (installdir : String) (w : World) (s : PState) :
    stateOf (initialize_conda_env installdir w s) =
      { s with installdir_contents := none,
               trace := s.trace ++ [Event.rmtree installdir, Event.runCmd condaConfigCmd] } := by
  simp [initialize_conda_env, stateOf_runCommand, rmtree2]

/-- C7: when `post_install_cmd` is unset (`None` or the empty string, both
falsy in the source's guard), `post_install_step` returns the state
unchanged: no external command is run and every process environment variable
(including `PATH`, `CONDA_ENV`, `CONDA_DEFAULT_ENV`) keeps its value. -/
theorem post_install_step_noop_when_unset (cfg : Config) (installdir : String)
    (w : World) (s : PState)
    (h : cfg.post_install_cmd = none ∨ cfg.post_install_cmd = some "") :
    post_install_step cfg installdir w s = Except.ok s := by
  rcases h with h | h <;> simp [post_install_step, h]

/-- Witness for C7: an unset `post_install_cmd`, run from `s0`. -/
theorem post_install_step_noop_when_unset_instance :
    post_install_step ⟨some "environment.yml", none⟩ "/opt/e" okWorld s0 = Except.ok s0 :=
  post_install_step_noop_when_unset ⟨some "environment.yml", none⟩ "/opt/e" okWorld s0
    (Or.inl rfl)

/-- C3: with the `environment` key set (and `PATH` bound, so the overlay does
not raise first), `install_conda_env` invokes exactly the one command
`conda env create -f <environment> -p <installdir>` — the shell commands
added to the trace are exactly `[createCmd e installdir]`, on the success
path and the failure path alike — it succeeds when that command exits zero,
and when the command exits non-zero it fails with an `EasyBuildError`
carrying the command, the captured output and the exit status. -/
theorem install_conda_env_exact_cmd_and_failure (cfg : Config) (e installdir : String)
    (he : cfg.environment = some e) (w : World) (s : PState) (p : String)
    (hp : getvar s.env "PATH" = some p) :
    runsOf (stateOf (install_conda_env cfg installdir w s)).trace =
      runsOf s.trace ++ [Event.runCmd (createCmd e installdir)] ∧
    ((w.run (createCmd e installdir)).1 = 0 →
      isOkR (install_conda_env cfg installdir w s) = true) ∧
    ((w.run (createCmd e installdir)).1 ≠ 0 →
      errOf (install_conda_env cfg installdir w s) =
        some (EBError.cmdFailed (createCmd e installdir)
          (w.run (createCmd e installdir)).1 (w.run (createCmd e installdir)).2)) := by
  refine ⟨?_, ?_, ?_⟩
  · simp [install_conda_env, set_conda_env, hp, bindR, he, stateOf_runCommand, env_setvar,
      runsOf, List.filter_append]
  · intro h
    simp [install_conda_env, set_conda_env, hp, bindR, he, runCommand, h, isOkR]
  · intro h
    simp [install_conda_env, set_conda_env, hp, bindR, he, runCommand, h, errOf]

/-- Witness for C3: the exact-command part at a concrete configuration,
install directory, world and state. -/
theorem install_conda_env_exact_cmd_and_failure_instance :
    runsOf (stateOf (install_conda_env ⟨some "environment.yml", none⟩ "/opt/e"
        okWorld s0)).trace =
      runsOf s0.trace ++ [Event.runCmd (createCmd "environment.yml" "/opt/e")] :=
  (install_conda_env_exact_cmd_and_failure ⟨some "environment.yml", none⟩ "environment.yml"
    "/opt/e" rfl okWorld s0 "/usr/bin" (by decide)).1

/-- C6: with `post_install_cmd` set to a non-empty command (and `PATH`
bound), if the command exits non-zero then `post_install_step` fails with an
`EasyBuildError` that surfaces the command and its captured output. -/
theorem post_install_step_failure_surfaces_output (cfg : Config) (c installdir : String)
    (hc : cfg.post_install_cmd = some c) (hne : ¬ c = "") (w : World) (s : PState)
    (p : String) (hp : getvar s.env "PATH" = some p) (hec : (w.run c).1 ≠ 0) :
    errOf (post_install_step cfg installdir w s) =
      some (EBError.cmdFailed c (w.run c).1 (w.run c).2) := by
  simp [post_install_step, hc, hne, set_conda_env, hp, bindR, runCommand, hec, errOf]

/-- Witness for C6: the command `pipx` exits with status 1 and output
`boom` in `failWorld "pipx"`. -/
theorem post_install_step_failure_surfaces_output_instance :
    errOf (post_install_step ⟨some "environment.yml", some "pipx"⟩ "/opt/e"
        (failWorld "pipx") s0) =
      some (EBError.cmdFailed "pipx" ((failWorld "pipx").run "pipx").1
        ((failWorld "pipx").run "pipx").2) :=
  post_install_step_failure_surfaces_output ⟨some "environment.yml", some "pipx"⟩ "pipx"
    "/opt/e" rfl (by decide) (failWorld "pipx") s0 "/usr/bin" (by decide) (by decide)

@[simp] theorem bindR_ok (s : PState) (f : PState → Res) : bindR (.ok s) f = f s := rfl

@[simp] theorem bindR_error (e : EBError × PState) (f : PState → Res) :
    bindR (.error e) f = .error e := rfl

@[simp] theorem stateOf_ok (s : PState) : stateOf (.ok s) = s := rfl

@[simp] theorem stateOf_error (e : EBError) (s : PState) : stateOf (.error (e, s)) = s := rfl

@[simp] theorem isSetPATH_setEnvPATH (v : String) :
    isSetPATH (Event.setEnv "PATH" v) = true := rfl

@[simp] theorem isSetPATH_setEnvCondaEnv (v : String) :
    isSetPATH (Event.setEnv "CONDA_ENV" v) = false := rfl

@[simp] theorem isSetPATH_setEnvCondaDefaultEnv (v : String) :
    isSetPATH (Event.setEnv "CONDA_DEFAULT_ENV" v) = false := rfl

@[simp] theorem isSetPATH_runCmd (c : String) : isSetPATH (Event.runCmd c) = false := rfl

@[simp] theorem isSetPATH_rmtree (p : String) : isSetPATH (Event.rmtree p) = false := rfl

/-- `runCommand` on a command that exits zero: success, command recorded. -/
theorem runCommand_ok (w : World) (cmd : String) (la lo : Bool) (s : PState)
    (h : (w.run cmd).1 = 0) :
    runCommand w cmd la lo s = .ok { s with trace := s.trace ++ [Event.runCmd cmd] } := by
  simp [runCommand, h]

/-- `set_conda_env` with `PATH` bound to `p`: the three bindings are written
to the environment and recorded, in order. -/
theorem set_conda_env_eq (installdir : String) (s : PState) (p : String)
    (hp : getvar s.env "PATH" = some p) :
    set_conda_env installdir s = .ok
      { s with
        env := setvar (setvar (setvar s.env "PATH" (installdir ++ "/bin" ++ ":" ++ p))
          "CONDA_ENV" installdir) "CONDA_DEFAULT_ENV" installdir,
        trace := s.trace ++
          [Event.setEnv "PATH" (installdir ++ "/bin" ++ ":" ++ p),
           Event.setEnv "CONDA_ENV" installdir,
           Event.setEnv "CONDA_DEFAULT_ENV" installdir] } := by
  simp [set_conda_env, hp, env_setvar]

/-- The final state of `install_step` when both conda commands succeed,
`PATH` is bound and `post_install_cmd` is falsy. -/
theorem install_step_state_no_post (cfg : Config) (e installdir : String)
    (he : cfg.environment = some e)
    (hpost : cfg.post_install_cmd = none ∨ cfg.post_install_cmd = some "")
    (w : World) (s : PState) (p : String) (hp : getvar s.env "PATH" = some p)
    (h1 : (w.run condaConfigCmd).1 = 0) (h2 : (w.run (createCmd e installdir)).1 = 0) :
    stateOf (install_step cfg installdir w s) =
      { env := setvar (setvar (setvar s.env "PATH" (installdir ++ "/bin" ++ ":" ++ p))
          "CONDA_ENV" installdir) "CONDA_DEFAULT_ENV" installdir,
        installdir_contents := none, srcs := s.srcs,
        trace := s.trace ++
          [Event.rmtree installdir, Event.runCmd condaConfigCmd,
           Event.setEnv "PATH" (installdir ++ "/bin" ++ ":" ++ p),
           Event.setEnv "CONDA_ENV" installdir, Event.setEnv "CONDA_DEFAULT_ENV" installdir,
           Event.runCmd (createCmd e installdir)] } := by
  rcases cfg with ⟨ce, cp⟩
  obtain rfl : ce = some e := he
  rcases hpost with hpost | hpost <;> obtain rfl : cp = _ := hpost <;>
    simp [install_step, initialize_conda_env, install_conda_env, post_install_step,
      set_conda_env, rmtree2, env_setvar, runCommand, bindR, stateOf, hp, h1, h2,
      List.append_assoc]

/-- The final state of `install_step` when both conda commands succeed,
`PATH` is bound and a non-empty `post_install_cmd` is configured (whatever
the exit status of the post-install command itself). -/
theorem install_step_state_with_post (cfg : Config) (e c installdir : String)
    (he : cfg.environment = some e) (hc : cfg.post_install_cmd = some c) (hcne : ¬ c = "")
    (w : World) (s : PState) (p : String) (hp : getvar s.env "PATH" = some p)
    (h1 : (w.run condaConfigCmd).1 = 0) (h2 : (w.run (createCmd e installdir)).1 = 0) :
    stateOf (install_step cfg installdir w s) =
      { env := setvar (setvar (setvar
            (setvar (setvar (setvar s.env
              "PATH" (installdir ++ "/bin" ++ ":" ++ p))
              "CONDA_ENV" installdir) "CONDA_DEFAULT_ENV" installdir)
            "PATH" (installdir ++ "/bin" ++ ":" ++ (installdir ++ "/bin" ++ ":" ++ p)))
            "CONDA_ENV" installdir) "CONDA_DEFAULT_ENV" installdir,
        installdir_contents := none, srcs := s.srcs,
        trace := s.trace ++
          [Event.rmtree installdir, Event.runCmd condaConfigCmd,
           Event.setEnv "PATH" (installdir ++ "/bin" ++ ":" ++ p),
           Event.setEnv "CONDA_ENV" installdir, Event.setEnv "CONDA_DEFAULT_ENV" installdir,
           Event.runCmd (createCmd e installdir),
           Event.setEnv "PATH"
             (installdir ++ "/bin" ++ ":" ++ (installdir ++ "/bin" ++ ":" ++ p)),
           Event.setEnv "CONDA_ENV" installdir, Event.setEnv "CONDA_DEFAULT_ENV" installdir,
           Event.runCmd c] } := by
  rcases cfg with ⟨ce, cp⟩
  obtain rfl : ce = some e := he
  obtain rfl : cp = some c := hc
  simp [install_step, initialize_conda_env, install_conda_env, post_install_step,
    set_conda_env, rmtree2, env_setvar, runCommand, bindR, hp, h1, h2,
    hcne, getvar_overlay_PATH, apply_ite stateOf, List.append_assoc]

/-- C2 counterexample: a complete, successful install run in which the
overlay is NOT applied before every shell-out to the package manager: in the
trace of `install_step` on a concrete input, the first shell command (the
`conda config` call, a package-manager shell-out) precedes every binding of
`PATH`, so `overlayBeforeFirstRun` is `false`. -/
theorem overlay_not_before_conda_config :
    isOkR (install_step ⟨some "environment.yml", none⟩ "/opt/e" okWorld s0) = true ∧
    overlayBeforeFirstRun
      (stateOf (install_step ⟨some "environment.yml", none⟩ "/opt/e" okWorld s0)).trace
      = false := by
  exact ⟨by decide, by decide⟩

/-- C2 amended: in every install run that reaches the package-manager
creation command (the `environment` key set, `PATH` bound, and the
`conda config` command succeeding), the overlay (`PATH` prepended with
`<installdir>/bin`, `CONDA_ENV` and `CONDA_DEFAULT_ENV` set to the install
directory) is applied before the `conda env create` shell-out and, when a
post-install command is configured, applied again before that command runs —
but the `conda config` shell-out precedes the first application of the
overlay.  The trace equality exhibits the exact order. -/
theorem overlay_order_in_install_step (cfg : Config) (e installdir : String)
    (he : cfg.environment = some e) (w : World) (s : PState) (p : String)
    (hp : getvar s.env "PATH" = some p)
    (h1 : (w.run condaConfigCmd).1 = 0)
    (h2 : (w.run (createCmd e installdir)).1 = 0) :
    (stateOf (install_step cfg installdir w s)).trace =
      s.trace ++
      [Event.rmtree installdir, Event.runCmd condaConfigCmd,
       Event.setEnv "PATH" (installdir ++ "/bin" ++ ":" ++ p),
       Event.setEnv "CONDA_ENV" installdir, Event.setEnv "CONDA_DEFAULT_ENV" installdir,
       Event.runCmd (createCmd e installdir)] ++
      (match cfg.post_install_cmd with
       | none => []
       | some c =>
           if c = "" then []
           else
             [Event.setEnv "PATH"
                (installdir ++ "/bin" ++ ":" ++ (installdir ++ "/bin" ++ ":" ++ p)),
              Event.setEnv "CONDA_ENV" installdir,
              Event.setEnv "CONDA_DEFAULT_ENV" installdir,
              Event.runCmd c]) := by
  cases hpost : cfg.post_install_cmd with
  | none =>
      rw [install_step_state_no_post cfg e installdir he (Or.inl hpost) w s p hp h1 h2]
      simp [List.append_assoc]
  | some c =>
      by_cases hc : c = ""
      · subst hc
        rw [install_step_state_no_post cfg e installdir he (Or.inr hpost) w s p hp h1 h2]
        simp [List.append_assoc]
      · rw [install_step_state_with_post cfg e c installdir he hpost hc w s p hp h1 h2]
        simp [hc, List.append_assoc]

/-- Witness for C2 (amended) at a concrete input with a post-install
command configured. -/
theorem overlay_order_in_install_step_instance :
    (stateOf (install_step ⟨some "environment.yml", some "pipx"⟩ "/opt/e" okWorld s0)).trace =
      s0.trace ++
      [Event.rmtree "/opt/e", Event.runCmd condaConfigCmd,
       Event.setEnv "PATH" ("/opt/e" ++ "/bin" ++ ":" ++ "/usr/bin"),
       Event.setEnv "CONDA_ENV" "/opt/e", Event.setEnv "CONDA_DEFAULT_ENV" "/opt/e",
       Event.runCmd (createCmd "environment.yml" "/opt/e")] ++
      [Event.setEnv "PATH"
         ("/opt/e" ++ "/bin" ++ ":" ++ ("/opt/e" ++ "/bin" ++ ":" ++ "/usr/bin")),
       Event.setEnv "CONDA_ENV" "/opt/e", Event.setEnv "CONDA_DEFAULT_ENV" "/opt/e",
       Event.runCmd "pipx"] :=
  overlay_order_in_install_step ⟨some "environment.yml", some "pipx"⟩ "environment.yml"
    "/opt/e" rfl okWorld s0 "/usr/bin" (by decide) rfl rfl

/-- C9: when `post_install_cmd` is set (to a non-empty command), the overlay
is applied a second time during `install_step` — `PATH` is written twice
beyond the starting trace — and by the time the post-install command runs,
`PATH` is `<installdir>/bin` prepended twice onto the original value:
applying the overlay is not idempotent on `PATH`. -/
theorem overlay_applied_twice_with_post_cmd (cfg : Config) (e c installdir : String)
    (he : cfg.environment = some e) (hc : cfg.post_install_cmd = some c) (hcne : ¬ c = "")
    (w : World) (s : PState) (p : String) (hp : getvar s.env "PATH" = some p)
    (h1 : (w.run condaConfigCmd).1 = 0) (h2 : (w.run (createCmd e installdir)).1 = 0) :
    getvar (stateOf (install_step cfg installdir w s)).env "PATH" =
      some (installdir ++ "/bin" ++ ":" ++ (installdir ++ "/bin" ++ ":" ++ p)) ∧
    ((stateOf (install_step cfg installdir w s)).trace.filter isSetPATH).length =
      (s.trace.filter isSetPATH).length + 2 := by
  rw [install_step_state_with_post cfg e c installdir he hc hcne w s p hp h1 h2]
  constructor
  · exact getvar_overlay_PATH _ _ _
  · simp [List.filter_append]

/-- Witness for C9 at a concrete input. -/
theorem overlay_applied_twice_with_post_cmd_instance :
    getvar (stateOf (install_step ⟨some "environment.yml", some "pipx"⟩ "/opt/e"
        okWorld s0)).env "PATH" =
      some ("/opt/e" ++ "/bin" ++ ":" ++ ("/opt/e" ++ "/bin" ++ ":" ++ "/usr/bin")) ∧
    ((stateOf (install_step ⟨some "environment.yml", some "pipx"⟩ "/opt/e"
        okWorld s0)).trace.filter isSetPATH).length =
      (s0.trace.filter isSetPATH).length + 2 :=
  overlay_applied_twice_with_post_cmd ⟨some "environment.yml", some "pipx"⟩
    "environment.yml" "pipx" "/opt/e" rfl rfl (by decide) okWorld s0 "/usr/bin"
    (by decide) rfl rfl

/-- C8: for every configuration, `make_module_req_guess` returns exactly the
three keys `PATH`, `MANPATH` and `PKG_CONFIG_PATH` with the fixed candidate
subdirectory lists `[bin, sbin]`, `[man, share/man]` and `[lib/pkgconfig,
lib32/pkgconfig, lib64/pkgconfig, share/pkgconfig]`; the result does not
depend on the configuration. -/
theorem make_module_req_guess_constant (cfg : Config) :
    make_module_req_guess cfg =
      [("PATH", ["bin", "sbin"]),
       ("MANPATH", ["man", "share/man"]),
       ("PKG_CONFIG_PATH",
         ["lib/pkgconfig", "lib32/pkgconfig", "lib64/pkgconfig", "share/pkgconfig"])] := rfl

/-- The copy loop never touches `self.src`. -/
theorem stage_sources_srcs (bd : String) (w : World) (ds : List SourceDesc) (s : PState) :
    (stateOf (stage_sources bd w ds s)).srcs = s.srcs := by
  induction ds generalizing s with
  | nil => rfl
  | cons d rest ih =>
      cases hcp : w.copy2Err d.path bd with
      | some err => simp [stage_sources, hcp]
      | none =>
          cases hch : w.chmodErr (bd ++ "/" ++ d.name) 448 with
          | some err => simp [stage_sources, hcp, hch]
          | none => simp [stage_sources, hcp, hch, ih]

/-- The copy loop on sources that all stage cleanly: success, and the trace
grows by exactly the copy/chmod event pair of each source, in order. -/
theorem stage_sources_ok (bd : String) (w : World) (ds : List SourceDesc)
    (h : ∀ d ∈ ds, descOk bd w d) (s : PState) :
    stage_sources bd w ds s = .ok { s with trace := s.trace ++ stageEvents bd ds } := by
  induction ds generalizing s with
  | nil => simp [stage_sources, stageEvents]
  | cons d rest ih =>
      obtain ⟨h1, h2⟩ := h d (List.mem_cons_self d rest)
      have hr : ∀ d' ∈ rest, descOk bd w d' := fun d' hd' => h d' (List.mem_cons_of_mem d hd')
      simp [stage_sources, h1, h2, stageEvents, ih hr, List.append_assoc]

/-- The copy loop on a list containing a failing source: the sources are
processed in order up to the first failure, the raised error surfaces the
underlying filesystem error, and nothing after the failing source is
processed (the final trace covers the clean prefix only, plus the copy
event when it is the chmod that fails). -/
theorem stage_sources_err (bd : String) (w : World) (ds : List SourceDesc)
    (hbad : ¬ ∀ d ∈ ds, descOk bd w d) (s : PState) :
    ∃ pre d post err s',
      ds = pre ++ d :: post ∧ (∀ d' ∈ pre, descOk bd w d') ∧
      stage_sources bd w ds s = .error (.copyFailed d.path bd err, s') ∧
      ((w.copy2Err d.path bd = some err ∧
          s'.trace = s.trace ++ stageEvents bd pre) ∨
       (w.copy2Err d.path bd = none ∧ w.chmodErr (bd ++ "/" ++ d.name) 448 = some err ∧
          s'.trace = s.trace ++ stageEvents bd pre ++ [Event.copy2 d.path bd])) := by
  induction ds generalizing s with
  | nil => exact absurd (by simp) hbad
  | cons d rest ih =>
      cases hcp : w.copy2Err d.path bd with
      | some err =>
          refine ⟨[], d, rest, err, s, rfl, by simp, by simp [stage_sources, hcp], ?_⟩
          exact Or.inl ⟨hcp, by simp [stageEvents]⟩
      | none =>
          cases hch : w.chmodErr (bd ++ "/" ++ d.name) 448 with
          | some err =>
              refine ⟨[], d, rest, err,
                { s with trace := s.trace ++ [Event.copy2 d.path bd] }, rfl, by simp,
                by simp [stage_sources, hcp, hch], ?_⟩
              exact Or.inr ⟨hcp, hch, by simp [stageEvents]⟩
          | none =>
              have hbad' : ¬ ∀ d' ∈ rest, descOk bd w d' := by
                intro hall
                refine hbad ?_
                intro d' hd'
                rcases List.mem_cons.mp hd' with rfl | hd''
                · exact ⟨hcp, hch⟩
                · exact hall d' hd''
              obtain ⟨pre, dd, post, err, s', hds, hpre, heq, hdisj⟩ :=
                ih hbad'
                  { env := s.env, installdir_contents := s.installdir_contents,
                    srcs := s.srcs,
                    trace := (s.trace ++ [Event.copy2 d.path bd]) ++
                      [Event.chmod (bd ++ "/" ++ d.name) 448] }
              refine ⟨d :: pre, dd, post, err, s', by simp [hds], ?_, ?_, ?_⟩
              · intro d' hd'
                rcases List.mem_cons.mp hd' with rfl | hd''
                · exact ⟨hcp, hch⟩
                · exact hpre d' hd''
              · rw [show stage_sources bd w (d :: rest) s =
                    stage_sources bd w rest
                      { env := s.env, installdir_contents := s.installdir_contents,
                        srcs := s.srcs,
                        trace := (s.trace ++ [Event.copy2 d.path bd]) ++
                          [Event.chmod (bd ++ "/" ++ d.name) 448] } from
                    by simp [stage_sources, hcp, hch]]
                exact heq
              · rcases hdisj with ⟨ha, hb⟩ | ⟨ha, hb, hb2⟩
                · exact Or.inl ⟨ha, by rw [hb]; simp [stageEvents, List.append_assoc]⟩
                · exact Or.inr ⟨ha, hb, by rw [hb2]; simp [stageEvents, List.append_assoc]⟩

/-- C5: `extract_step` on a non-empty source list.  If every source stages
cleanly, it succeeds and the trace records, for each source in order, a
metadata-preserving copy into the build directory followed by a chmod of the
copied file to owner-only full permissions (`S_IRWXU` = 0o700 = 448).  If
some copy or chmod raises a filesystem error, it fails with an
`EasyBuildError` surfacing the underlying error, the sources before the
failing one having been processed in order and no source after it processed
(the trace stops at the failure). -/
theorem extract_step_stages_and_aborts (bd : String) (w : World) (s : PState)
    (hne : s.srcs ≠ []) :
    ((∀ d ∈ s.srcs, descOk bd w d) →
       isOkR (extract_step bd w s) = true ∧
       (stateOf (extract_step bd w s)).trace = s.trace ++ stageEvents bd s.srcs) ∧
    ((¬ ∀ d ∈ s.srcs, descOk bd w d) →
       ∃ pre d post err,
         s.srcs = pre ++ d :: post ∧ (∀ d' ∈ pre, descOk bd w d') ∧
         errOf (extract_step bd w s) = some (.copyFailed d.path bd err) ∧
         ((w.copy2Err d.path bd = some err ∧
             (stateOf (extract_step bd w s)).trace = s.trace ++ stageEvents bd pre) ∨
          (w.copy2Err d.path bd = none ∧
             w.chmodErr (bd ++ "/" ++ d.name) 448 = some err ∧
             (stateOf (extract_step bd w s)).trace =
               s.trace ++ stageEvents bd pre ++ [Event.copy2 d.path bd]))) := by
  rcases s with ⟨env, idc, srcs, trace⟩
  cases srcs with
  | nil => exact absurd rfl hne
  | cons d0 rest =>
  constructor
  · intro hok
    have hok' : ∀ d ∈ ({ d0 with finalpath := bd } :: rest), descOk bd w d := by
      intro d hd
      rcases List.mem_cons.mp hd with h | hd'
      · rw [h]
        exact hok d0 (List.mem_cons_self d0 rest)
      · exact hok d (List.mem_cons_of_mem d0 hd')
    have hrun : extract_step bd w ⟨env, idc, d0 :: rest, trace⟩ =
        stage_sources bd w ({ d0 with finalpath := bd } :: rest)
          ⟨env, idc, { d0 with finalpath := bd } :: rest, trace⟩ := rfl
    rw [hrun, stage_sources_ok bd w _ hok' _]
    exact ⟨rfl, rfl⟩
  · intro hbad
    have hbad' : ¬ ∀ d ∈ ({ d0 with finalpath := bd } :: rest), descOk bd w d := by
      intro hall
      refine hbad ?_
      intro d hd
      rcases List.mem_cons.mp hd with h | hd'
      · rw [h]
        exact hall { d0 with finalpath := bd }
          (List.mem_cons_self { d0 with finalpath := bd } rest)
      · exact hall d (List.mem_cons_of_mem _ hd')
    obtain ⟨pre', dd, post', err, s', hds, hpre, heq, hdisj⟩ :=
      stage_sources_err bd w ({ d0 with finalpath := bd } :: rest) hbad'
        ⟨env, idc, { d0 with finalpath := bd } :: rest, trace⟩
    have hrun : extract_step bd w ⟨env, idc, d0 :: rest, trace⟩ =
        stage_sources bd w ({ d0 with finalpath := bd } :: rest)
          ⟨env, idc, { d0 with finalpath := bd } :: rest, trace⟩ := rfl
    cases pre' with
    | nil =>
        obtain ⟨hhd, htl⟩ : { d0 with finalpath := bd } = dd ∧ rest = post' := by
          simpa using hds
        subst hhd
        subst htl
        refine ⟨[], d0, rest, err, by simp, by simp, ?_, ?_⟩
        · rw [hrun, heq]; rfl
        · rcases hdisj with ⟨ha, hb⟩ | ⟨ha, hb, hb2⟩
          · exact Or.inl ⟨ha, by rw [hrun, heq]; exact hb⟩
          · exact Or.inr ⟨ha, hb, by rw [hrun, heq]; exact hb2⟩
    | cons e' pre₂ =>
        obtain ⟨hhd, htl⟩ : { d0 with finalpath := bd } = e' ∧
            rest = pre₂ ++ dd :: post' := by
          simpa using hds
        subst hhd
        refine ⟨d0 :: pre₂, dd, post', err, by simp [htl], ?_, ?_, ?_⟩
        · intro d' hd'
          rcases List.mem_cons.mp hd' with h | hd''
          · rw [h]
            exact hpre { d0 with finalpath := bd }
              (List.mem_cons_self { d0 with finalpath := bd } pre₂)
          · exact hpre d' (List.mem_cons_of_mem _ hd'')
        · rw [hrun, heq]; rfl
        · rcases hdisj with ⟨ha, hb⟩ | ⟨ha, hb, hb2⟩
          · refine Or.inl ⟨ha, ?_⟩
            rw [hrun, heq]
            exact hb
          · refine Or.inr ⟨ha, hb, ?_⟩
            rw [hrun, heq]
            exact hb2

/-- Starting state for the C5 and C10 witnesses: one staged source. -/
def sC5 : PState :=
  ⟨[("PATH", "/usr/bin")], some ["old"], [⟨"/t/a.yml", "a.yml", "/old"⟩], []⟩

/-- Witness for C5: the success branch at a concrete one-source state in a
world without filesystem errors. -/
theorem extract_step_stages_and_aborts_instance :
    isOkR (extract_step "/bld" okWorld sC5) = true ∧
    (stateOf (extract_step "/bld" okWorld sC5)).trace =
      sC5.trace ++ stageEvents "/bld" sC5.srcs :=
  (extract_step_stages_and_aborts "/bld" okWorld sC5 (by decide)).1
    (fun _ _ => ⟨rfl, rfl⟩)

/-- C10: when `self.src` is non-empty, `extract_step` rewrites only the
first descriptor's `finalpath` field, setting it to the build directory; the
remaining descriptors, and every other field of the first descriptor, are
unchanged in the final state (on the success and failure paths alike). -/
theorem extract_step_frame_on_srcs (bd : String) (w : World) (s : PState)
    (d : SourceDesc) (rest : List SourceDesc) (h : s.srcs = d :: rest) :
    (stateOf (extract_step bd w s)).srcs = { d with finalpath := bd } :: rest := by
  rcases s with ⟨env, idc, srcs, trace⟩
  obtain rfl : srcs = d :: rest := h
  have hrun : extract_step bd w ⟨env, idc, d :: rest, trace⟩ =
      stage_sources bd w ({ d with finalpath := bd } :: rest)
        ⟨env, idc, { d with finalpath := bd } :: rest, trace⟩ := rfl
  rw [hrun, stage_sources_srcs]

/-- Witness for C10 at a concrete one-source state. -/
theorem extract_step_frame_on_srcs_instance :
    (stateOf (extract_step "/bld" okWorld sC5)).srcs =
      [{ path := "/t/a.yml", name := "a.yml", finalpath := "/bld" }] :=
  extract_step_frame_on_srcs "/bld" okWorld sC5 ⟨"/t/a.yml", "a.yml", "/old"⟩ [] rfl

end CondaEnv
